import Mathlib

/-!
Verification of the configuration-state subsystem of the Arc Raiders config
tuner (`src/arc_tuner.py`).

Modelling conventions:
* Python strings are modelled as `List Char` (`Str`); string literals are
  injected with `S`.
* A config file is modelled as the list of its text lines; keys, values and
  section names are hypothesised newline-free wherever a claim needs the line
  model to be faithful (Python's universal-newline reading splits on both
  `\n` and a bare `\r`).
* `ConfigDocument` (a Python dict of dicts) is modelled as an insertion-ordered
  association list (`Doc`); Python dict assignment updates the value of the
  first matching key in place and appends new keys at the end, which is what
  `setA` does.
* The file system is modelled as an association list from path to content.
  `shutil.copy2`, `open(...,'w')` and `Path.unlink` are modelled as succeeding
  (benign I/O); where a claim is about an I/O failure, the failure is injected
  through an explicit boolean (`ioFail` in `write_config`).
* `Path.resolve` plus the deny-list scan of `validate_path` depends on which
  system directories exist on the host, so it is abstracted into an oracle
  `forbidden : Str → Bool`; the extension check of `validate_path` is modelled
  concretely (pathlib's `suffix`, lower-cased, must be `.ini`, `.json` or
  empty).
* Exceptions that the Python code deliberately raises are modelled with
  `Except` (`write_config` raises `ValueError`); exceptions that the code
  catches internally never escape the modelled functions.
-/

namespace ArcTuner

/-- Python strings, modelled as lists of characters. -/
abbrev Str := List Char

/-- Injection of Lean string literals into the model. -/
def S (s : String) : Str := s.data

/-- Characters stripped by Python's `str.strip()` (ASCII whitespace). -/
def pySpace (c : Char) : Bool :=
  c = ' ' || c = '\t' || c = '\n' || c = '\x0d' || c = '\x0b' || c = '\x0c'

/-- Remove leading whitespace, as Python's `str.lstrip()`. -/
def stripLeft (l : Str) : Str := l.dropWhile pySpace

/-- Remove trailing whitespace, as Python's `str.rstrip()`. -/
def stripRight (l : Str) : Str := (l.reverse.dropWhile pySpace).reverse

/-- Python's `str.strip()`. -/
def pyStrip (l : Str) : Str := stripRight (stripLeft l)

/-- First-match lookup in an association list (Python `dict.get` /
`dict.__getitem__` combined with `in`). -/
def getA {α : Type} : List (Str × α) → Str → Option α
  | [], _ => none
  | (k, v) :: rest, x => if k = x then some v else getA rest x

/-- Python dict assignment `d[k] = v`: replaces the value of an existing key in
place (keeping its position), appends a fresh key at the end. -/
def setA {α : Type} : List (Str × α) → Str → α → List (Str × α)
  | [], k, v => [(k, v)]
  | (k', v') :: rest, k, v =>
      if k' = k then (k, v) :: rest else (k', v') :: setA rest k v

/-- Update the value stored at a key, leaving the list unchanged when the key
is absent. -/
def updateA {α : Type} : List (Str × α) → Str → (α → α) → List (Str × α)
  | [], _, _ => []
  | (k', v') :: rest, k, f =>
      if k' = k then (k', f v') :: rest else (k', v') :: updateA rest k f

/-- Remove every entry stored at a key (`Path.unlink` on the file-system
model, where paths are unique). -/
def removeA {α : Type} : List (Str × α) → Str → List (Str × α)
  | [], _ => []
  | (k', v') :: rest, k =>
      if k' = k then removeA rest k else (k', v') :: removeA rest k

/-- One section of a config document: ordered key/value pairs. -/
abbrev Sec := List (Str × Str)

/-- A `ConfigDocument`: ordered association list from section name to its
key/value mapping (Python `Dict[str, Dict[str, str]]`). -/
abbrev Doc := List (Str × Sec)

/-- `config[current_section] = {}` guarded by `current_section not in config`
(from `ConfigManager.read_config`). -/
def ensureSection (doc : Doc) (s : Str) : Doc :=
  if (getA doc s).isSome then doc else doc ++ [(s, [])]

/-- `config[current_section][key] = value` where the section is already
present (from `ConfigManager.read_config` / `set_setting`). -/
def docSet (doc : Doc) (s k v : Str) : Doc :=
  updateA doc s (fun kvs => setA kvs k v)

/-- Nested lookup: the value of `k` in section `s`, if both are present. -/
def getA2 (doc : Doc) (s k : Str) : Option Str :=
  match getA doc s with
  | none => none
  | some kvs => getA kvs k

/-- `line.startswith('[') and line.endswith(']')` for a non-empty line
(from `ConfigManager.read_config`). -/
def isSectionHeader (l : Str) : Bool :=
  l.head? = some '[' && l.getLast? = some ']'

/-- `line[1:-1]`: the section name between the brackets. -/
def sectionName (l : Str) : Str := (l.drop 1).dropLast

/-- `'=' in line`. -/
def hasEq (l : Str) : Bool := l.any (fun c => c = '=')

/-- `key, _, value = line.partition('=')` — the part before the first `=`,
stripped. -/
def kvKey (l : Str) : Str := pyStrip (l.takeWhile (fun c => !(c = '=')))

/-- `key, _, value = line.partition('=')` — the part after the first `=`,
stripped. -/
def kvVal (l : Str) : Str := pyStrip ((l.dropWhile (fun c => !(c = '='))).tail)

/-- One iteration of the line loop of `ConfigManager.read_config`.  The state
is the document built so far together with `current_section` (`none` before
the first header).  Note the Python guard `if '=' in line and current_section:`
treats the empty section name as falsy. -/
def readLine (st : Doc × Option Str) (raw : Str) : Doc × Option Str :=
  let line := pyStrip raw
  if line = [] then st
  else if isSectionHeader line then
    (ensureSection st.1 (sectionName line), some (sectionName line))
  else if hasEq line then
    match st.2 with
    | some sec =>
        if sec = [] then st
        else (docSet st.1 sec (kvKey line) (kvVal line), st.2)
    | none => st
  else st

/-- `ConfigManager.read_config`, on the lines of the file. -/
def read_config (lines : List Str) : Doc :=
  (lines.foldl readLine ([], none)).1

/-- The lines `ConfigManager.write_config` emits for one section: header,
`key=value` lines, then one blank line. -/
def writeSectionLines (s : Str) (kvs : Sec) : List Str :=
  ('[' :: s ++ [']']) :: (kvs.map (fun kv => kv.1 ++ '=' :: kv.2) ++ [[]])

/-- The lines `ConfigManager.write_config` emits for a whole document. -/
def writeLines (doc : Doc) : List Str :=
  doc.flatMap (fun e => writeSectionLines e.1 e.2)

/-- The file content written by `write_config` (each line followed by a
newline). -/
def renderConfig (doc : Doc) : Str :=
  (writeLines doc).foldr (fun l acc => l ++ '\n' :: acc) []

/-! ### The Setting Catalog -/

/-- A typed Python default value, as far as `str()` needs to observe it. -/
inductive PyVal : Type where
  | str (s : Str)
  | bool (b : Bool)
  | int (n : Int)
  deriving DecidableEq

/-- Python `str()` on a default value (`str(True) = "True"`). -/
def pyStr : PyVal → Str
  | .str s => s
  | .bool b => if b then S "True" else S "False"
  | .int n => S (toString n)

/-- The fields of `SettingDefinition` that the verified operations consult
(`display_name`, `description`, `options`, `min_val`, `max_val` and
`performance_impact` are carried by the source dataclass but never read by
the Config Store operations; `sect` models the Python field `section`). -/
structure SettingDefinition where
  key : Str
  setting_type : Str
  sect : Str
  category : Str
  default : PyVal
  deriving DecidableEq

/-- Shorthand for the section string shared by most definitions. -/
def embarkSection : String := "/Script/EmbarkUserSettings.EmbarkGameUserSettings"

/-- Entry constructor mirroring one `SettingDefinition(...)` literal. -/
def mkDef (key setting_type sect category : String) (default : PyVal) :
    SettingDefinition :=
  ⟨S key, S setting_type, S sect, S category, default⟩

/-- The module-level `SETTINGS_DEFINITIONS` dict, in source order: pairs of
(dict key, definition).  Note the entry stored under dict key
`"bEnableMouseSmoothing_Engine"` whose `key` field is
`"bEnableMouseSmoothing"`, as in the source. -/
def SETTINGS_DEFINITIONS : List (Str × SettingDefinition) := [
  (S "ResolutionScalingMethod",
    mkDef "ResolutionScalingMethod" "choice" embarkSection "Upscaling" (.str (S "DLSS"))),
  (S "DLSSMode",
    mkDef "DLSSMode" "choice" embarkSection "Upscaling" (.str (S "Quality"))),
  (S "DLSSModel",
    mkDef "DLSSModel" "choice" embarkSection "Upscaling" (.str (S "Transformer"))),
  (S "XeSSMode",
    mkDef "XeSSMode" "choice" embarkSection "Upscaling" (.str (S "Quality"))),
  (S "FSR3Mode",
    mkDef "FSR3Mode" "choice" embarkSection "Upscaling" (.str (S "Balanced"))),
  (S "DLSSFrameGenerationMode",
    mkDef "DLSSFrameGenerationMode" "choice" embarkSection "Frame Generation" (.str (S "Off"))),
  (S "FSR3FrameGenerationMode",
    mkDef "FSR3FrameGenerationMode" "choice" embarkSection "Frame Generation" (.str (S "Off"))),
  (S "NvReflexMode",
    mkDef "NvReflexMode" "choice" embarkSection "Latency" (.str (S "Enabled"))),
  (S "ReflexLatewarpMode",
    mkDef "ReflexLatewarpMode" "choice" embarkSection "Latency" (.str (S "Off"))),
  (S "bAntiLag2Enabled",
    mkDef "bAntiLag2Enabled" "boolean" embarkSection "Latency" (.bool true)),
  (S "RTXGIQuality",
    mkDef "RTXGIQuality" "choice" embarkSection "Ray Tracing" (.str (S "DynamicHigh"))),
  (S "RTXGIResolutionQuality",
    mkDef "RTXGIResolutionQuality" "choice" embarkSection "Ray Tracing" (.str (S "3"))),
  (S "FullscreenMode",
    mkDef "FullscreenMode" "choice" embarkSection "Display" (.str (S "1"))),
  (S "bUseVSync",
    mkDef "bUseVSync" "boolean" embarkSection "Display" (.bool false)),
  (S "FrameRateLimit",
    mkDef "FrameRateLimit" "number" embarkSection "Display" (.int 0)),
  (S "bUseHDRDisplayOutput",
    mkDef "bUseHDRDisplayOutput" "boolean" embarkSection "Display" (.bool false)),
  (S "MotionBlurEnabled",
    mkDef "MotionBlurEnabled" "boolean" embarkSection "Visual Effects" (.bool false)),
  (S "LensDistortionEnabled",
    mkDef "LensDistortionEnabled" "boolean" embarkSection "Visual Effects" (.bool false)),
  (S "sg.ViewDistanceQuality",
    mkDef "sg.ViewDistanceQuality" "choice" "ScalabilityGroups" "Quality Settings" (.str (S "3"))),
  (S "sg.ShadowQuality",
    mkDef "sg.ShadowQuality" "choice" "ScalabilityGroups" "Quality Settings" (.str (S "3"))),
  (S "sg.TextureQuality",
    mkDef "sg.TextureQuality" "choice" "ScalabilityGroups" "Quality Settings" (.str (S "3"))),
  (S "sg.EffectsQuality",
    mkDef "sg.EffectsQuality" "choice" "ScalabilityGroups" "Quality Settings" (.str (S "3"))),
  (S "sg.FoliageQuality",
    mkDef "sg.FoliageQuality" "choice" "ScalabilityGroups" "Quality Settings" (.str (S "3"))),
  (S "sg.PostProcessQuality",
    mkDef "sg.PostProcessQuality" "choice" "ScalabilityGroups" "Quality Settings" (.str (S "3"))),
  (S "sg.ReflectionQuality",
    mkDef "sg.ReflectionQuality" "choice" "ScalabilityGroups" "Quality Settings" (.str (S "3"))),
  (S "sg.ShadingQuality",
    mkDef "sg.ShadingQuality" "choice" "ScalabilityGroups" "Quality Settings" (.str (S "3"))),
  (S "sg.GlobalIlluminationQuality",
    mkDef "sg.GlobalIlluminationQuality" "choice" "ScalabilityGroups" "Quality Settings" (.str (S "3"))),
  (S "sg.AntiAliasingQuality",
    mkDef "sg.AntiAliasingQuality" "choice" "ScalabilityGroups" "Quality Settings" (.str (S "3"))),
  (S "sg.ResolutionQuality",
    mkDef "sg.ResolutionQuality" "slider" "ScalabilityGroups" "Quality Settings" (.int 100)),
  (S "bEnableMouseSmoothing",
    mkDef "bEnableMouseSmoothing" "boolean" "/Script/Engine.InputSettings" "Competitive Settings" (.bool false)),
  (S "bViewAccelerationEnabled",
    mkDef "bViewAccelerationEnabled" "boolean" "/Script/Engine.InputSettings" "Competitive Settings" (.bool false)),
  (S "bEnableMouseSmoothing_Engine",
    mkDef "bEnableMouseSmoothing" "boolean" "/Script/Engine.GameUserSettings" "Competitive Settings" (.bool false)),
  (S "r.DepthOfFieldQuality",
    mkDef "r.DepthOfFieldQuality" "choice" "SystemSettings" "Competitive Settings" (.str (S "0"))),
  (S "r.BloomQuality",
    mkDef "r.BloomQuality" "choice" "SystemSettings" "Competitive Settings" (.str (S "0"))),
  (S "r.LensFlareQuality",
    mkDef "r.LensFlareQuality" "choice" "SystemSettings" "Competitive Settings" (.str (S "0"))),
  (S "r.SceneColorFringe.Max",
    mkDef "r.SceneColorFringe.Max" "choice" "SystemSettings" "Competitive Settings" (.str (S "0"))),
  (S "r.Tonemapper.Sharpen",
    mkDef "r.Tonemapper.Sharpen" "slider" "SystemSettings" "Competitive Settings" (.int 0)),
  (S "r.Tonemapper.GrainQuantization",
    mkDef "r.Tonemapper.GrainQuantization" "choice" "SystemSettings" "Competitive Settings" (.str (S "0"))),
  (S "r.Vignette.Quality",
    mkDef "r.Vignette.Quality" "choice" "SystemSettings" "Competitive Settings" (.str (S "0"))),
  (S "r.OneFrameThreadLag",
    mkDef "r.OneFrameThreadLag" "choice" "SystemSettings" "Competitive Settings" (.str (S "1"))),
  (S "bSmoothFrameRate",
    mkDef "bSmoothFrameRate" "boolean" "/Script/Engine.Engine" "Competitive Settings" (.bool true)),
  (S "r.CreateShadersOnLoad",
    mkDef "r.CreateShadersOnLoad" "choice" "SystemSettings" "Competitive Settings" (.str (S "1"))),
  (S "r.Streaming.PoolSize",
    mkDef "r.Streaming.PoolSize" "number" "SystemSettings" "Competitive Settings" (.int 4096)),
  (S "r.MaxAnisotropy",
    mkDef "r.MaxAnisotropy" "choice" "SystemSettings" "Competitive Settings" (.str (S "16"))),
  (S "r.TextureStreaming",
    mkDef "r.TextureStreaming" "choice" "SystemSettings" "Competitive Settings" (.str (S "1"))),
  (S "AudioQualityLevel",
    mkDef "AudioQualityLevel" "choice" embarkSection "Competitive Settings" (.str (S "3"))),
  (S "bEnableAudioSpatialisation",
    mkDef "bEnableAudioSpatialisation" "boolean" embarkSection "Competitive Settings" (.bool true))
]

/-- `ConfigManager.get_setting`: `None` for an unknown key, otherwise the
stored value or `str(definition.default)`.  (The source's `sg.`-prefix branch
returns the same expression in both arms.) -/
def get_setting (cfg : Doc) (key : Str) : Option Str :=
  match getA SETTINGS_DEFINITIONS key with
  | none => none
  | some d =>
    match getA cfg d.sect with
    | none => some (pyStr d.default)
    | some kvs => some ((getA kvs key).getD (pyStr d.default))

/-- `ConfigManager.set_setting`: `False` (document untouched) for an unknown
key, otherwise create the definition's section if absent and assign. -/
def set_setting (cfg : Doc) (key value : Str) : Bool × Doc :=
  match getA SETTINGS_DEFINITIONS key with
  | none => (false, cfg)
  | some d => (true, docSet (ensureSection cfg d.sect) d.sect key value)

/-! ### ConfigManager state, path validation, backups and profiles -/

/-- The mutable fields of `ConfigManager` that the verified operations read
or write. -/
structure CMState where
  config_path : Option Str
  backup_dir : Option Str
  profiles_dir : Option Str
  current_config : Doc
  deriving DecidableEq

/-- Replace the in-memory document of a manager state. -/
def setCurrent (st : CMState) (cfg : Doc) : CMState :=
  ⟨st.config_path, st.backup_dir, st.profiles_dir, cfg⟩

/-- A file system (one per content type): association list from path to
content.  Paths are plain strings with `/` separators. -/
abbrev Fs (α : Type) := List (Str × α)

/-- The final path component (`Path.name`). -/
def basename (p : Str) : Str := (p.reverse.takeWhile (fun c => !(c = '/'))).reverse

/-- `Path.suffix`: the extension of the final component including the dot,
empty when the component has no dot, starts with its only dot, or ends with
a dot. -/
def pathSuffix (p : Str) : Str :=
  let name := basename p
  if '.' ∈ name then
    let after := (name.reverse.takeWhile (fun c => !(c = '.'))).reverse
    if after.length + 1 < name.length ∧ after ≠ [] then '.' :: after else []
  else []

/-- `Path.stem`: the final component without its `pathSuffix`. -/
def pathStem (p : Str) : Str :=
  let name := basename p
  name.take (name.length - (pathSuffix p).length)

/-- `ConfigManager.validate_path`.  The deny-list scan compares the resolved
path against system directories that exist on the host, so it is abstracted
into the oracle `forbidden`; the extension check
(`path.suffix.lower() in ['.ini', '.json', '']`) is concrete. -/
def validate_path (forbidden : Str → Bool) (p : Str) : Bool :=
  if forbidden p then false
  else
    let suf := (pathSuffix p).map Char.toLower
    suf = S ".ini" || suf = S ".json" || suf = []

/-- `ConfigManager.write_config`.  `.error` models the `ValueError` the
source raises before touching the file; `ioFail` injects an I/O error during
the actual write, which the source catches and turns into `False` (leaving
`current_config` and the file untouched). -/
def write_config (forbidden : Str → Bool) (ioFail : Bool) (st : CMState)
    (fs : Fs Str) (cfg : Doc) : Except Str (Bool × CMState × Fs Str) :=
  match st.config_path with
  | none => .error (S "Config path not set")
  | some cp =>
    if validate_path forbidden cp then
      if ioFail then .ok (false, st, fs)
      else .ok (true, setCurrent st cfg, setA fs cp (renderConfig cfg))
    else .error (S "Invalid config path")

/-- The backup file name `ConfigManager.create_backup` builds:
`f"GameUserSettings_{timestamp}{tag_suffix}.ini"` with
`tag_suffix = f"_{tag}" if tag else ""`.  The stem is the literal
`GameUserSettings`, independent of the live config file's name. -/
def backupFileName (ts tag : Str) : Str :=
  S "GameUserSettings_" ++ ts ++ (if tag = [] then [] else '_' :: tag) ++ S ".ini"

/-- `ConfigManager.create_backup`: `None` when the config path is unset, the
live file is absent, or the backup directory is unset; otherwise copies the
live file into the backup directory under `backupFileName`.  `ts` stands for
`datetime.now().strftime("%Y%m%d_%H%M%S")`. -/
def create_backup (st : CMState) (fs : Fs Str) (ts tag : Str) :
    Option Str × Fs Str :=
  match st.config_path with
  | none => (none, fs)
  | some cp =>
    match getA fs cp with
    | none => (none, fs)
    | some content =>
      match st.backup_dir with
      | none => (none, fs)
      | some bd =>
        let bp := bd ++ '/' :: backupFileName ts tag
        (some bp, setA fs bp content)

/-- `ConfigManager.restore_backup`: fails when the backup path does not exist
or fails validation; otherwise calls `create_backup("pre_restore")` (its
result is ignored, as in the source) and copies the backup over the live
path.  A missing config path makes the final copy raise, which the source
catches and turns into `False`. -/
def restore_backup (forbidden : Str → Bool) (st : CMState) (fs : Fs Str)
    (ts bp : Str) : Bool × Fs Str :=
  if (getA fs bp).isNone then (false, fs)
  else if validate_path forbidden bp then
    let fs1 := (create_backup st fs ts (S "pre_restore")).2
    match st.config_path with
    | none => (false, fs1)
    | some cp =>
      match getA fs1 bp with
      | some content => (true, setA fs1 cp content)
      | none => (false, fs1)
  else (false, fs)

/-- Python word characters as matched by `re` on `str`, i.e. `\w`:
underscore plus `str.isalnum()` characters.  Modelled faithfully for code
points up to U+00FF (ASCII plus the Latin-1 letters, superscripts and
fractions); code points above U+00FF are outside the model's scope and
treated as non-word. -/
def pyWordChar (c : Char) : Bool :=
  let n := c.toNat
  (0x30 ≤ n && n ≤ 0x39) || (0x41 ≤ n && n ≤ 0x5A) || (0x61 ≤ n && n ≤ 0x7A) ||
  n == 0x5F ||
  n == 0xAA || n == 0xB2 || n == 0xB3 || n == 0xB5 || n == 0xB9 || n == 0xBA ||
  n == 0xBC || n == 0xBD || n == 0xBE ||
  (0xC0 ≤ n && n ≤ 0xFF && !(n == 0xD7) && !(n == 0xF7))

/-- `re.sub(r'[^\w\-]', '_', name)`: every character that is neither a word
character nor a hyphen becomes an underscore. -/
def pySanitize (name : Str) : Str :=
  name.map (fun c => if pyWordChar c || c = '-' then c else '_')

/-- A profile file on disk, as far as `load_profile` observes it: either a
JSON object with `name`, `created` and `config` fields, or content whose
parsing raises (malformed JSON). -/
inductive ProfileFile : Type where
  | valid (name created : Str) (config : Doc)
  | malformed
  deriving DecidableEq

/-- `ConfigManager.save_profile`: sanitizes the name, validates the path and
writes the JSON profile (overwriting silently).  `ts` stands for
`datetime.now().isoformat()`. -/
def save_profile (forbidden : Str → Bool) (st : CMState)
    (pfs : Fs ProfileFile) (ts name : Str) (cfg : Doc) :
    Bool × Fs ProfileFile :=
  match st.profiles_dir with
  | none => (false, pfs)
  | some pd =>
    let path := pd ++ '/' :: (pySanitize name ++ S ".json")
    if validate_path forbidden path then
      (true, setA pfs path (.valid name ts cfg))
    else (false, pfs)

/-- `ConfigManager.load_profile`: same sanitization; `None` when the file is
absent or its JSON fails to parse, otherwise `data.get('config')`. -/
def load_profile (st : CMState) (pfs : Fs ProfileFile) (name : Str) :
    Option Doc :=
  match st.profiles_dir with
  | none => none
  | some pd =>
    let path := pd ++ '/' :: (pySanitize name ++ S ".json")
    match getA pfs path with
    | none => none
    | some (.valid _ _ cfg) => some cfg
    | some .malformed => none

/-- `ConfigManager.delete_profile`: same sanitization; removes the file when
present. -/
def delete_profile (st : CMState) (pfs : Fs ProfileFile) (name : Str) :
    Bool × Fs ProfileFile :=
  match st.profiles_dir with
  | none => (false, pfs)
  | some pd =>
    let path := pd ++ '/' :: (pySanitize name ++ S ".json")
    if (getA pfs path).isSome then (true, removeA pfs path)
    else (false, pfs)

/-! ### Spec-side reference definitions

The following definitions follow the specification's words, not the source;
they exist only to be compared with the source-derived definitions above. -/

/-- Modelled from the spec (claim C6): sanitization that replaces every
character outside the ASCII set `[A-Za-z0-9_-]` with `_`. -/
def specSanitizeProfileName (name : Str) : Str :=
  name.map (fun c =>
    let n := c.toNat
    if (0x30 ≤ n && n ≤ 0x39) || (0x41 ≤ n && n ≤ 0x5A) ||
       (0x61 ≤ n && n ≤ 0x7A) || c = '_' || c = '-'
    then c else '_')

/-- Modelled from the spec (claim C5): backup file name
`<basename of the live config file>_<timestamp>[_<tag>].ini`. -/
def specBackupFileName (configPath ts tag : Str) : Str :=
  pathStem configPath ++ '_' :: ts ++ (if tag = [] then [] else '_' :: tag) ++
    S ".ini"

/-- Reference semantics for claim C10: scan the file's lines with the same
line classification as `read_config`, emitting the `(section, key, value)`
triples in file order. -/
def flatTriples : List Str → Option Str → List (Str × Str × Str)
  | [], _ => []
  | raw :: ls, cur =>
    let line := pyStrip raw
    if line = [] then flatTriples ls cur
    else if isSectionHeader line then flatTriples ls (some (sectionName line))
    else if hasEq line then
      match cur with
      | some sec =>
          if sec = [] then flatTriples ls cur
          else (sec, kvKey line, kvVal line) :: flatTriples ls cur
      | none => flatTriples ls cur
    else flatTriples ls cur

/-- The value of the last triple for a given section and key, if any. -/
def lastVal : List (Str × Str × Str) → Str → Str → Option Str
  | [], _, _ => none
  | (s0, k0, v0) :: rest, s, k =>
    match lastVal rest s k with
    | some v => some v
    | none => if s0 = s ∧ k0 = k then some v0 else none

/-- The conditions claim C2 places on one key/value pair: the key is
non-empty, contains no `=`, key and value carry no leading or trailing
whitespace and no newline characters, and the serialized line does not
itself look like a `[...]` section header. -/
def GoodKV (k v : Str) : Prop :=
  k ≠ [] ∧ '=' ∉ k ∧ pyStrip k = k ∧ pyStrip v = v ∧
  '\n' ∉ k ∧ '\x0d' ∉ k ∧ '\n' ∉ v ∧ '\x0d' ∉ v ∧
  isSectionHeader (k ++ '=' :: v) = false

/-- The conditions claim C2 places on one section: non-empty
whitespace-trimmed newline-free name, distinct keys, and good pairs. -/
def GoodSection (s : Str) (kvs : Sec) : Prop :=
  s ≠ [] ∧ '\n' ∉ s ∧ '\x0d' ∉ s ∧ pyStrip s = s ∧
  (kvs.map Prod.fst).Nodup ∧ ∀ kv ∈ kvs, GoodKV kv.1 kv.2

/-- The conditions claim C2 places on the whole document: distinct section
names (it models a Python dict) and good sections. -/
def GoodDoc (doc : Doc) : Prop :=
  (doc.map Prod.fst).Nodup ∧ ∀ e ∈ doc, GoodSection e.1 e.2

instance decidableGoodKV (k v : Str) : Decidable (GoodKV k v) := by
  unfold GoodKV
  infer_instance

instance decidableGoodSection (s : Str) (kvs : Sec) :
    Decidable (GoodSection s kvs) := by
  unfold GoodSection
  infer_instance

instance decidableGoodDoc (doc : Doc) : Decidable (GoodDoc doc) := by
  unfold GoodDoc
  infer_instance

/-! ### Association-list lemmas -/

theorem getA_setA_self {α : Type} (l : List (Str × α)) (k : Str) (v : α) :
    getA (setA l k v) k = some v := by
  induction l with
  | nil => simp [setA, getA]
  | cons e rest ih =>
    by_cases h : e.1 = k
    · simp [setA, getA, h]
    · simp [setA, getA, h, ih]

theorem getA_setA_ne {α : Type} (l : List (Str × α)) (k k' : Str) (v : α)
    (h : k' ≠ k) : getA (setA l k v) k' = getA l k' := by
  have h' : ¬(k = k') := fun hh => h hh.symm
  induction l with
  | nil => simp [setA, getA, h']
  | cons e rest ih =>
    by_cases he : e.1 = k
    · simp [setA, getA, he, h']
    · simp [setA, getA, he, ih]

theorem getA_removeA_self {α : Type} (l : List (Str × α)) (k : Str) :
    getA (removeA l k) k = none := by
  induction l with
  | nil => simp [removeA, getA]
  | cons e rest ih =>
    by_cases h : e.1 = k
    · simp [removeA, h, ih]
    · simp [removeA, getA, h, ih]

theorem getA_updateA_self {α : Type} (l : List (Str × α)) (k : Str)
    (f : α → α) : getA (updateA l k f) k = (getA l k).map f := by
  induction l with
  | nil => simp [updateA, getA]
  | cons e rest ih =>
    by_cases h : e.1 = k
    · simp [updateA, getA, h]
    · simp [updateA, getA, h, ih]

theorem getA_updateA_ne {α : Type} (l : List (Str × α)) (k k' : Str)
    (f : α → α) (h : k' ≠ k) : getA (updateA l k f) k' = getA l k' := by
  have h' : ¬(k = k') := fun hh => h hh.symm
  induction l with
  | nil => simp [updateA]
  | cons e rest ih =>
    by_cases he : e.1 = k
    · simp [updateA, getA, he, h']
    · simp [updateA, getA, he, ih]

theorem getA_append {α : Type} (l1 l2 : List (Str × α)) (x : Str) :
    getA (l1 ++ l2) x =
      match getA l1 x with
      | some v => some v
      | none => getA l2 x := by
  induction l1 with
  | nil => simp [getA]
  | cons e rest ih =>
    by_cases h : e.1 = x
    · simp [getA, h]
    · simp [getA, h, ih]

theorem getA_ensureSection_isSome (doc : Doc) (s : Str) :
    (getA (ensureSection doc s) s).isSome := by
  unfold ensureSection
  by_cases h : (getA doc s).isSome
  · simp [h]
  · rw [Option.not_isSome_iff_eq_none] at h
    simp [h, getA_append, getA]

/-! ### Whitespace and line-shape lemmas -/

theorem stripLeft_eq_self_of_head (l : Str)
    (h : ∀ c, l.head? = some c → pySpace c = false) : stripLeft l = l := by
  cases l with
  | nil => rfl
  | cons c t => simp [stripLeft, List.dropWhile_cons, h c rfl]

theorem stripRight_eq_self_of_getLast (l : Str)
    (h : ∀ c, l.getLast? = some c → pySpace c = false) : stripRight l = l := by
  rw [stripRight]
  have hd : List.dropWhile pySpace l.reverse = l.reverse := by
    cases hc : l.reverse with
    | nil => rfl
    | cons c t =>
      have hlast : l.getLast? = some c := by
        rw [← List.head?_reverse, hc]
        rfl
      simp [List.dropWhile_cons, h c hlast]
  rw [hd, List.reverse_reverse]

theorem pyStrip_eq_self (l : Str)
    (h1 : ∀ c, l.head? = some c → pySpace c = false)
    (h2 : ∀ c, l.getLast? = some c → pySpace c = false) : pyStrip l = l := by
  rw [pyStrip, stripLeft_eq_self_of_head l h1,
    stripRight_eq_self_of_getLast l h2]

theorem length_stripLeft_le (l : Str) : (stripLeft l).length ≤ l.length :=
  (List.dropWhile_suffix pySpace).length_le

theorem length_stripRight_le (l : Str) : (stripRight l).length ≤ l.length := by
  rw [stripRight, List.length_reverse]
  have h1 := (List.dropWhile_suffix (l := l.reverse) pySpace).length_le
  rwa [List.length_reverse] at h1

theorem pyStrip_fix_left (l : Str) (h : pyStrip l = l) : stripLeft l = l := by
  have h1 : l.length ≤ (stripLeft l).length := by
    conv_lhs => rw [← h]
    exact length_stripRight_le (stripLeft l)
  exact (List.dropWhile_suffix pySpace).eq_of_length
    (le_antisymm (length_stripLeft_le l) h1)

theorem pyStrip_fix_right (l : Str) (h : pyStrip l = l) : stripRight l = l := by
  have h2 := pyStrip_fix_left l h
  rwa [pyStrip, h2] at h

theorem head_not_space_of_stripLeft (c : Char) (t : Str)
    (h : stripLeft (c :: t) = c :: t) : pySpace c = false := by
  by_contra hc
  rw [Bool.not_eq_false] at hc
  rw [stripLeft, List.dropWhile_cons, if_pos hc] at h
  have hlen := congrArg List.length h
  have hle := (List.dropWhile_suffix (l := t) pySpace).length_le
  simp only [List.length_cons] at hlen
  omega

theorem getLast_not_space_of_stripRight (l : Str) (c : Char)
    (h : stripRight l = l) (he : l.getLast? = some c) : pySpace c = false := by
  have h2 : List.dropWhile pySpace l.reverse = l.reverse := by
    have h3 := congrArg List.reverse h
    rwa [stripRight, List.reverse_reverse] at h3
  cases hc : l.reverse with
  | nil =>
    rw [← List.head?_reverse, hc] at he
    exact Option.noConfusion he
  | cons c' t =>
    rw [← List.head?_reverse, hc, List.head?_cons] at he
    obtain rfl := Option.some.inj he
    rw [hc] at h2
    exact head_not_space_of_stripLeft c' t h2

/-- Stripping a written section-header line is the identity. -/
theorem pyStrip_header (s : Str) :
    pyStrip ('[' :: s ++ [']']) = '[' :: s ++ [']'] := by
  apply pyStrip_eq_self
  · intro c hc
    rw [List.cons_append, List.head?_cons] at hc
    obtain rfl := Option.some.inj hc
    decide
  · intro c hc
    rw [List.getLast?_concat] at hc
    obtain rfl := Option.some.inj hc
    decide

theorem isSectionHeader_header (s : Str) :
    isSectionHeader ('[' :: s ++ [']']) = true := by
  rw [isSectionHeader, List.getLast?_concat]
  simp

theorem sectionName_header (s : Str) : sectionName ('[' :: s ++ [']']) = s := by
  rw [sectionName, List.cons_append]
  simp [List.dropLast_concat]

theorem takeWhile_kvline (k v : Str) (h : '=' ∉ k) :
    (k ++ '=' :: v).takeWhile (fun c => !(c = '=')) = k := by
  induction k with
  | nil => simp [List.takeWhile_cons]
  | cons c t ih =>
    have hc : ¬(c = '=') := fun hh => h (by rw [hh]; exact List.mem_cons_self ..)
    have ht : '=' ∉ t := fun hh => h (List.mem_cons_of_mem _ hh)
    simp [List.takeWhile_cons, hc, ih ht]

theorem dropWhile_kvline (k v : Str) (h : '=' ∉ k) :
    (k ++ '=' :: v).dropWhile (fun c => !(c = '=')) = '=' :: v := by
  induction k with
  | nil => simp [List.dropWhile_cons]
  | cons c t ih =>
    have hc : ¬(c = '=') := fun hh => h (by rw [hh]; exact List.mem_cons_self ..)
    have ht : '=' ∉ t := fun hh => h (List.mem_cons_of_mem _ hh)
    simp [List.dropWhile_cons, hc, ih ht]

theorem kvKey_kvline (k v : Str) (hk : pyStrip k = k) (h : '=' ∉ k) :
    kvKey (k ++ '=' :: v) = k := by
  rw [kvKey, takeWhile_kvline k v h, hk]

theorem kvVal_kvline (k v : Str) (hv : pyStrip v = v) (h : '=' ∉ k) :
    kvVal (k ++ '=' :: v) = v := by
  rw [kvVal, dropWhile_kvline k v h, List.tail_cons, hv]

theorem hasEq_kvline (k v : Str) : hasEq (k ++ '=' :: v) = true := by
  simp [hasEq, List.any_append, List.any_cons]

theorem pyStrip_kvline (k v : Str) (hk : pyStrip k = k) (hkne : k ≠ [])
    (hv : pyStrip v = v) : pyStrip (k ++ '=' :: v) = k ++ '=' :: v := by
  apply pyStrip_eq_self
  · intro c hc
    cases k with
    | nil => exact absurd rfl hkne
    | cons c0 t =>
      rw [List.cons_append, List.head?_cons] at hc
      obtain rfl := Option.some.inj hc
      exact head_not_space_of_stripLeft c0 t (pyStrip_fix_left _ hk)
  · intro c hc
    cases v with
    | nil =>
      rw [List.getLast?_concat] at hc
      obtain rfl := Option.some.inj hc
      decide
    | cons c0 t =>
      rw [List.getLast?_append, List.getLast?_cons_cons] at hc
      cases hy : (c0 :: t).getLast? with
      | none =>
        rw [List.getLast?_eq_none_iff] at hy
        exact List.noConfusion hy
      | some y =>
        rw [hy] at hc
        obtain rfl := Option.some.inj hc
        exact getLast_not_space_of_stripRight (c0 :: t) y
          (pyStrip_fix_right _ hv) hy

/-! ### Parser-step lemmas -/

theorem readLine_blank (st : Doc × Option Str) : readLine st [] = st := rfl

theorem readLine_header (st : Doc × Option Str) (s : Str) :
    readLine st ('[' :: s ++ [']']) = (ensureSection st.1 s, some s) := by
  simp only [readLine, pyStrip_header, isSectionHeader_header,
    sectionName_header]
  simp

theorem readLine_kv (doc : Doc) (sec k v : Str) (hsec : sec ≠ [])
    (hk : GoodKV k v) :
    readLine (doc, some sec) (k ++ '=' :: v) = (docSet doc sec k v, some sec) := by
  obtain ⟨h1, h2, h3, h4, _, _, _, _, h9⟩ := hk
  simp only [readLine, pyStrip_kvline k v h3 h1 h4, h9, hasEq_kvline,
    kvKey_kvline k v h3 h2, kvVal_kvline k v h4 h2]
  simp [hsec, h1, List.append_eq_nil]

/-! ### Round-trip lemmas -/

theorem ensureSection_absent (doc : Doc) (s : Str) (h : getA doc s = none) :
    ensureSection doc s = doc ++ [(s, [])] := by
  simp [ensureSection, h]

theorem setA_absent {α : Type} (w : List (Str × α)) (k : Str) (v : α)
    (h : getA w k = none) : setA w k v = w ++ [(k, v)] := by
  induction w with
  | nil => rfl
  | cons e rest ih =>
    rw [getA] at h
    by_cases he : e.1 = k
    · rw [if_pos he] at h
      exact Option.noConfusion h
    · rw [if_neg he] at h
      simp [setA, he, ih h]

theorem docSet_last (acc : Doc) (s : Str) (w : Sec) (k v : Str)
    (hacc : getA acc s = none) :
    docSet (acc ++ [(s, w)]) s k v = acc ++ [(s, setA w k v)] := by
  induction acc with
  | nil => simp [docSet, updateA]
  | cons e rest ih =>
    obtain ⟨ek, ev⟩ := e
    rw [getA] at hacc
    by_cases he : ek = s
    · rw [if_pos he] at hacc
      exact Option.noConfusion hacc
    · rw [if_neg he] at hacc
      have ih' := ih hacc
      simp only [docSet] at ih' ⊢
      rw [List.cons_append, updateA, if_neg he, ih', List.cons_append]

/-- Processing the written `key=value` lines of one section appends those
pairs, in order, to the section's current contents. -/
theorem foldl_kv_block (kvs : Sec) : ∀ (acc : Doc) (w : Sec) (s : Str),
    s ≠ [] → getA acc s = none →
    (∀ kv ∈ kvs, GoodKV kv.1 kv.2) → (kvs.map Prod.fst).Nodup →
    (∀ kv ∈ kvs, getA w kv.1 = none) →
    List.foldl readLine (acc ++ [(s, w)], some s)
        (kvs.map (fun kv => kv.1 ++ '=' :: kv.2))
      = (acc ++ [(s, w ++ kvs)], some s) := by
  induction kvs with
  | nil =>
    intro acc w s _ _ _ _ _
    simp
  | cons kv rest ih =>
    intro acc w s hs hacc hgood hnodup hw
    rw [List.map_cons, List.foldl_cons,
      readLine_kv _ s kv.1 kv.2 hs (hgood kv (List.mem_cons_self ..)),
      docSet_last acc s w kv.1 kv.2 hacc,
      setA_absent w kv.1 kv.2 (hw kv (List.mem_cons_self ..))]
    have hres := ih acc (w ++ [(kv.1, kv.2)]) s hs hacc
      (fun e he => hgood e (List.mem_cons_of_mem _ he))
      (by
        rw [List.map_cons] at hnodup
        exact hnodup.of_cons)
      (fun e he => by
        rw [getA_append]
        rw [hw e (List.mem_cons_of_mem _ he)]
        have hne : kv.1 ≠ e.1 := by
          rw [List.map_cons, List.nodup_cons] at hnodup
          intro hh
          exact hnodup.1 (hh ▸ List.mem_map_of_mem Prod.fst he)
        simp [getA, hne])
    rw [hres]
    simp

/-- Main round-trip induction: folding the parser over the written lines of
a good document appends that document to the accumulated one. -/
theorem roundtrip_aux (doc : Doc) : ∀ (acc : Doc) (cur : Option Str),
    GoodDoc doc → (∀ e ∈ doc, getA acc e.1 = none) →
    (List.foldl readLine (acc, cur) (writeLines doc)).1 = acc ++ doc := by
  induction doc with
  | nil =>
    intro acc cur _ _
    simp [writeLines]
  | cons e rest ih =>
    intro acc cur hgood hdisj
    obtain ⟨hnodup, hsecs⟩ := hgood
    obtain ⟨hs, _, _, _, hkeys, hkvs⟩ := hsecs e (List.mem_cons_self ..)
    have hacc : getA acc e.1 = none := hdisj e (List.mem_cons_self ..)
    rw [writeLines, List.flatMap_cons, List.foldl_append, ← writeLines]
    rw [writeSectionLines, List.foldl_cons, readLine_header,
      ensureSection_absent _ _ hacc, List.foldl_append]
    have hblock := foldl_kv_block e.2 acc [] e.1 hs hacc hkvs hkeys
      (fun _ _ => rfl)
    simp only at hblock
    rw [hblock]
    simp only [List.nil_append, List.foldl_cons, readLine_blank,
      List.foldl_nil]
    have hrest := ih (acc ++ [(e.1, e.2)]) (some e.1)
      ⟨(List.map_cons Prod.fst e rest ▸ hnodup).of_cons,
       fun e' he' => hsecs e' (List.mem_cons_of_mem _ he')⟩
      (fun e' he' => by
        rw [getA_append, hdisj e' (List.mem_cons_of_mem _ he')]
        have hne : e.1 ≠ e'.1 := by
          rw [List.map_cons, List.nodup_cons] at hnodup
          intro hh
          exact hnodup.1 (hh ▸ List.mem_map_of_mem Prod.fst he')
        simp [getA, hne])
    rw [hrest]
    simp

/-! ### Claim theorems: the write/read round-trip -/

/-- Claim C2, counterexample: the claim's hypotheses do not suffice.  A key
containing `=` (here `a=b` with value `c`) satisfies every stated hypothesis
— non-empty, trimmed, newline-free, and its line `a=b=c` is not a `[...]`
header — yet reading splits at the first `=`, yielding the triple
`(S, a, b=c)` instead of `(S, a=b, c)`.  An empty section name also
satisfies the hypotheses, but its `[]` header makes `current_section` falsy
in Python, so the keys written under it are dropped on read. -/
theorem write_read_not_roundtrip :
    pyStrip (S "a=b") = S "a=b"
    ∧ S "a=b" ≠ []
    ∧ isSectionHeader (S "a=b" ++ '=' :: S "c") = false
    ∧ read_config (writeLines [(S "S", [(S "a=b", S "c")])])
        = [(S "S", [(S "a", S "b=c")])]
    ∧ read_config (writeLines [(S "S", [(S "a=b", S "c")])])
        ≠ [(S "S", [(S "a=b", S "c")])]
    ∧ read_config (writeLines [([], [(S "k", S "v")])]) = [([], [])]
    ∧ read_config (writeLines [([], [(S "k", S "v")])])
        ≠ [([], [(S "k", S "v")])] := by
  decide

/-- Claim C2, amended: for every `ConfigDocument` with distinct, non-empty
section names and distinct keys per section, all newline-free and free of
leading/trailing whitespace, with non-empty keys that contain no `=`, and
whose `key=value` lines do not form a `[...]` section header, writing the
document and reading it back yields the identical document (hence exactly
the same section/key/value triples). -/
theorem write_read_roundtrip (doc : Doc) (h : GoodDoc doc) :
    read_config (writeLines doc) = doc := by
  rw [read_config, roundtrip_aux doc [] none h (fun e _ => rfl)]
  rfl

/-- Witness for `write_read_roundtrip` on a two-section document. -/
theorem write_read_roundtrip_witness :
    GoodDoc [(S "SectionA", [(S "K", S "V1")]),
             (S "SectionB", [(S "K2", S "V2"), (S "K3", S "")])]
    ∧ read_config (writeLines
        [(S "SectionA", [(S "K", S "V1")]),
         (S "SectionB", [(S "K2", S "V2"), (S "K3", S "")])])
      = [(S "SectionA", [(S "K", S "V1")]),
         (S "SectionB", [(S "K2", S "V2"), (S "K3", S "")])] :=
  ⟨by decide, write_read_roundtrip
    [(S "SectionA", [(S "K", S "V1")]),
     (S "SectionB", [(S "K2", S "V2"), (S "K3", S "")])] (by decide)⟩

/-! ### Merge-semantics lemmas -/

theorem getA2_ensureSection (doc : Doc) (s0 s k : Str) :
    getA2 (ensureSection doc s0) s k = getA2 doc s k := by
  by_cases h : (getA doc s0).isSome
  · simp [ensureSection, h]
  · rw [Option.not_isSome_iff_eq_none] at h
    rw [ensureSection]
    simp only [h, Option.isSome_none, Bool.false_eq_true, if_false]
    rw [getA2, getA_append]
    cases hg : getA doc s with
    | some kvs => simp [getA2, hg]
    | none =>
      simp only
      rw [getA2, hg]
      by_cases hs : s0 = s
      · simp [getA, hs]
      · simp [getA, hs]

theorem getA2_docSet (doc : Doc) (sec k0 v0 : Str)
    (h : (getA doc sec).isSome) (s k : Str) :
    getA2 (docSet doc sec k0 v0) s k
      = if sec = s ∧ k0 = k then some v0 else getA2 doc s k := by
  obtain ⟨w, hw⟩ := Option.isSome_iff_exists.mp h
  by_cases hs : sec = s
  · subst hs
    rw [getA2, docSet, getA_updateA_self, hw]
    simp only [Option.map_some']
    by_cases hk : k0 = k
    · subst hk
      rw [getA_setA_self]
      simp
    · rw [getA_setA_ne w k0 k v0 (fun hh => hk hh.symm)]
      simp [hk, getA2, hw]
  · rw [getA2, docSet, getA_updateA_ne _ _ _ _ (fun hh => hs hh.symm)]
    simp [hs, getA2]

/-- Parser correctness against the flat last-wins semantics: folding the
parser from any state whose current section (if set) is present in the
document yields, for every section/key pair, the last value assigned to it
by the remaining lines, falling back to the initial document. -/
theorem c10_aux (lines : List Str) : ∀ (doc : Doc) (cur : Option Str),
    (∀ sec, cur = some sec → (getA doc sec).isSome) →
    ∀ s k, getA2 (List.foldl readLine (doc, cur) lines).1 s k
      = (match lastVal (flatTriples lines cur) s k with
         | some v => some v
         | none => getA2 doc s k) := by
  induction lines with
  | nil =>
    intro doc cur _ s k
    simp [flatTriples, lastVal]
  | cons raw ls ih =>
    intro doc cur hinv s k
    rw [List.foldl_cons]
    by_cases h1 : pyStrip raw = []
    · rw [show readLine (doc, cur) raw = (doc, cur) from by
        simp [readLine, h1]]
      rw [show flatTriples (raw :: ls) cur = flatTriples ls cur from by
        rw [flatTriples.eq_def]; simp [h1]]
      exact ih doc cur hinv s k
    · by_cases h2 : isSectionHeader (pyStrip raw) = true
      · rw [show readLine (doc, cur) raw
            = (ensureSection doc (sectionName (pyStrip raw)),
               some (sectionName (pyStrip raw))) from by
          simp [readLine, h1, h2]]
        rw [show flatTriples (raw :: ls) cur
            = flatTriples ls (some (sectionName (pyStrip raw))) from by
          rw [flatTriples.eq_def]; simp [h1, h2]]
        rw [ih _ _ (fun sec hsec => by
          obtain rfl := Option.some.inj hsec
          exact getA_ensureSection_isSome doc _) s k]
        rw [getA2_ensureSection]
      · by_cases h3 : hasEq (pyStrip raw) = true
        · cases cur with
          | none =>
            rw [show readLine (doc, none) raw = (doc, none) from by
              simp [readLine, h1, h2, h3]]
            rw [show flatTriples (raw :: ls) none = flatTriples ls none from by
              rw [flatTriples.eq_def]; simp [h1, h2, h3]]
            exact ih doc none hinv s k
          | some sec =>
            by_cases h4 : sec = []
            · rw [show readLine (doc, some sec) raw = (doc, some sec) from by
                simp [readLine, h1, h2, h3, h4]]
              rw [show flatTriples (raw :: ls) (some sec)
                  = flatTriples ls (some sec) from by
                rw [flatTriples.eq_def]; simp [h1, h2, h3, h4]]
              exact ih doc (some sec) hinv s k
            · have hsome := hinv sec rfl
              have hds : (getA (docSet doc sec (kvKey (pyStrip raw))
                  (kvVal (pyStrip raw))) sec).isSome := by
                rw [docSet, getA_updateA_self]
                obtain ⟨w, hw⟩ := Option.isSome_iff_exists.mp hsome
                rw [hw]
                rfl
              rw [show readLine (doc, some sec) raw
                  = (docSet doc sec (kvKey (pyStrip raw)) (kvVal (pyStrip raw)),
                     some sec) from by
                simp [readLine, h1, h2, h3, h4]]
              rw [show flatTriples (raw :: ls) (some sec)
                  = (sec, kvKey (pyStrip raw), kvVal (pyStrip raw))
                      :: flatTriples ls (some sec) from by
                rw [flatTriples.eq_def]; simp [h1, h2, h3, h4]]
              rw [ih _ _ (fun sec' hsec' => by
                obtain rfl := Option.some.inj hsec'
                exact hds) s k]
              rw [lastVal]
              cases hlv : lastVal (flatTriples ls (some sec)) s k with
              | some v => simp [hlv]
              | none =>
                simp only [hlv]
                rw [getA2_docSet doc sec _ _ hsome s k]
                by_cases hc : sec = s ∧ kvKey (pyStrip raw) = k
                · simp [hc]
                · simp [hc]
        · rw [show readLine (doc, cur) raw = (doc, cur) from by
            simp [readLine, h1, h2, h3]]
          rw [show flatTriples (raw :: ls) cur = flatTriples ls cur from by
            rw [flatTriples.eq_def]; simp [h1, h2, h3]]
          exact ih doc cur hinv s k

theorem mapFst_updateA {α : Type} (l : List (Str × α)) (k : Str) (f : α → α) :
    (updateA l k f).map Prod.fst = l.map Prod.fst := by
  induction l with
  | nil => rfl
  | cons e rest ih =>
    by_cases he : e.1 = k
    · simp [updateA, he]
    · simp [updateA, he, ih]

theorem getA_eq_none_iff {α : Type} (l : List (Str × α)) (x : Str) :
    getA l x = none ↔ x ∉ l.map Prod.fst := by
  induction l with
  | nil => simp [getA]
  | cons e rest ih =>
    rw [getA, List.map_cons, List.mem_cons]
    by_cases he : e.1 = x
    · rw [if_pos he, he]
      constructor
      · intro hn
        exact Option.noConfusion hn
      · intro hn
        exact absurd (Or.inl rfl) hn
    · rw [if_neg he, ih]
      constructor
      · intro hn hmem
        rcases hmem with hmem | hmem
        · exact he hmem.symm
        · exact hn hmem
      · intro hn hmem
        exact hn (Or.inr hmem)

theorem keys_nodup_ensureSection (doc : Doc) (s : Str)
    (h : (doc.map Prod.fst).Nodup) :
    ((ensureSection doc s).map Prod.fst).Nodup := by
  by_cases hp : (getA doc s).isSome
  · simpa [ensureSection, hp] using h
  · rw [Option.not_isSome_iff_eq_none, getA_eq_none_iff] at hp
    simp only [ensureSection]
    rw [if_neg (by simp [getA_eq_none_iff, hp])]
    rw [List.map_append, List.nodup_append]
    refine ⟨h, by simp, ?_⟩
    intro a ha hb
    simp only [List.map_cons, List.map_nil, List.mem_singleton] at hb
    exact hp (hb ▸ ha)

theorem readLine_keys_nodup (st : Doc × Option Str) (raw : Str)
    (h : (st.1.map Prod.fst).Nodup) :
    ((readLine st raw).1.map Prod.fst).Nodup := by
  by_cases h1 : pyStrip raw = []
  · simpa [readLine, h1] using h
  · by_cases h2 : isSectionHeader (pyStrip raw) = true
    · have hr : (readLine st raw).1
          = ensureSection st.1 (sectionName (pyStrip raw)) := by
        simp [readLine, h1, h2]
      rw [hr]
      exact keys_nodup_ensureSection _ _ h
    · by_cases h3 : hasEq (pyStrip raw) = true
      · cases hst : st.2 with
        | none => simpa [readLine, h1, h2, h3, hst] using h
        | some sec =>
          by_cases h4 : sec = []
          · simpa [readLine, h1, h2, h3, hst, h4] using h
          · have hr : (readLine st raw).1
                = docSet st.1 sec (kvKey (pyStrip raw)) (kvVal (pyStrip raw)) := by
              simp [readLine, h1, h2, h3, hst, h4]
            rw [hr, docSet, mapFst_updateA]
            exact h
      · simpa [readLine, h1, h2, h3] using h

theorem keys_nodup_foldl (lines : List Str) : ∀ (doc : Doc) (cur : Option Str),
    (doc.map Prod.fst).Nodup →
    ((List.foldl readLine (doc, cur) lines).1.map Prod.fst).Nodup := by
  induction lines with
  | nil =>
    intro doc cur h
    simpa using h
  | cons raw ls ih =>
    intro doc cur h
    rw [List.foldl_cons]
    exact ih (readLine (doc, cur) raw).1 (readLine (doc, cur) raw).2
      (readLine_keys_nodup (doc, cur) raw h)

/-- Claim C10: reading merges repeated `[Section]` headers into a single
section entry (the returned document's section names are distinct) and, for
every section and key, the value read is the value of the last `key=value`
occurrence attributed to that section in file order, across all occurrences
of its header. -/
theorem read_config_merges_and_last_wins (lines : List Str) (s k : Str) :
    getA2 (read_config lines) s k = lastVal (flatTriples lines none) s k
    ∧ ((read_config lines).map Prod.fst).Nodup := by
  constructor
  · rw [read_config,
      c10_aux lines [] none (fun sec hsec => Option.noConfusion hsec) s k]
    cases hlv : lastVal (flatTriples lines none) s k with
    | some v => simp
    | none => simp [getA2, getA]
  · rw [read_config]
    exact keys_nodup_foldl lines [] none (by simp)

/-! ### Claim theorems: catalog and settings -/

/-- Claim C1: every `SettingDefinition` in `SETTINGS_DEFINITIONS` was claimed
to have a globally unique `key` field.  The catalog violates this: two
definitions carry the key field `"bEnableMouseSmoothing"`, because the entry
stored under the dict key `"bEnableMouseSmoothing_Engine"` has key field
`"bEnableMouseSmoothing"` (which also makes the repository's own test
`tests.py::test_setting_definitions`, asserting `defn.key == key`, fail).
This theorem evaluates the catalog at the offending entries. -/
theorem settings_definitions_key_not_unique :
    ((SETTINGS_DEFINITIONS.map (fun e => e.2.key)).countP
      (fun k => k == S "bEnableMouseSmoothing") = 2)
    ∧ ((getA SETTINGS_DEFINITIONS (S "bEnableMouseSmoothing_Engine")).map
        (fun d => d.key) = some (S "bEnableMouseSmoothing"))
    ∧ (∀ e ∈ SETTINGS_DEFINITIONS, e.2.key ≠ []) := by
  decide

/-- Claim C3: for every key with a catalog definition and every value `v`,
`set_setting key v` succeeds and `get_setting key` on the resulting document
returns exactly `v`. -/
theorem set_then_get_setting (cfg : Doc) (key v : Str)
    (h : (getA SETTINGS_DEFINITIONS key).isSome) :
    (set_setting cfg key v).1 = true
    ∧ get_setting (set_setting cfg key v).2 key = some v := by
  obtain ⟨d, hd⟩ := Option.isSome_iff_exists.mp h
  obtain ⟨w, hw⟩ :=
    Option.isSome_iff_exists.mp (getA_ensureSection_isSome cfg d.sect)
  have hsec :
      getA (docSet (ensureSection cfg d.sect) d.sect key v) d.sect
        = some (setA w key v) := by
    rw [docSet, getA_updateA_self, hw]
    rfl
  constructor
  · simp [set_setting, hd]
  · simp [set_setting, get_setting, hd, hsec, getA_setA_self]

/-- Witness for `set_then_get_setting` at a concrete known key. -/
theorem set_then_get_setting_witness :
    (getA SETTINGS_DEFINITIONS (S "DLSSMode")).isSome
    ∧ ((set_setting [] (S "DLSSMode") (S "Performance")).1 = true
       ∧ get_setting (set_setting [] (S "DLSSMode") (S "Performance")).2
           (S "DLSSMode") = some (S "Performance")) :=
  ⟨by decide, set_then_get_setting [] (S "DLSSMode") (S "Performance") (by decide)⟩

/-- Claim C9: `set_setting` on a key without a catalog definition returns
`False` and leaves the in-memory document completely unchanged. -/
theorem set_setting_unknown_key (cfg : Doc) (key v : Str)
    (h : getA SETTINGS_DEFINITIONS key = none) :
    set_setting cfg key v = (false, cfg) := by
  simp [set_setting, h]

/-- Witness for `set_setting_unknown_key` at a concrete unknown key. -/
theorem set_setting_unknown_key_witness :
    getA SETTINGS_DEFINITIONS (S "NoSuchKey") = none
    ∧ set_setting [(S "A", [])] (S "NoSuchKey") (S "x") = (false, [(S "A", [])]) :=
  ⟨by decide, set_setting_unknown_key [(S "A", [])] (S "NoSuchKey") (S "x") (by decide)⟩

/-! ### Claim theorems: write_config error reporting -/

/-- Claim C4, counterexample: when the config path fails the path-safety
check, `write_config` does not report failure through its boolean return
value — it raises `ValueError("Invalid config path")` (modelled as
`.error`), which no caller in the source catches. -/
theorem write_config_raises_on_invalid_path :
    validate_path (fun _ => false) (S "/tmp/evil.txt") = false
    ∧ write_config (fun _ => false) false
        ⟨some (S "/tmp/evil.txt"), none, none, []⟩ [] []
        = .error (S "Invalid config path") := by
  constructor
  · decide
  · rfl

/-- Claim C4, amended: with a config path set, `write_config` raises
`ValueError` when the path fails the safety check, and otherwise never
raises: an I/O failure during the actual write is caught and reported as a
`False` return value (state and file system untouched), success as `True`. -/
theorem write_config_error_reporting (forbidden : Str → Bool) (io : Bool)
    (st : CMState) (fs : Fs Str) (cfg : Doc) (cp : Str)
    (h : st.config_path = some cp) :
    (validate_path forbidden cp = false →
       write_config forbidden io st fs cfg = .error (S "Invalid config path"))
    ∧ (validate_path forbidden cp = true → io = true →
       write_config forbidden io st fs cfg = .ok (false, st, fs))
    ∧ (validate_path forbidden cp = true → io = false →
       write_config forbidden io st fs cfg
         = .ok (true, setCurrent st cfg, setA fs cp (renderConfig cfg))) := by
  refine ⟨fun hv => ?_, fun hv hio => ?_, fun hv hio => ?_⟩
  · simp [write_config, h, hv]
  · simp [write_config, h, hv, hio]
  · simp [write_config, h, hv, hio]

/-- Witness for `write_config_error_reporting` at a concrete manager. -/
theorem write_config_error_reporting_witness :
    (⟨some (S "/g/c.ini"), none, none, []⟩ : CMState).config_path
        = some (S "/g/c.ini")
    ∧ ((validate_path (fun _ => false) (S "/g/c.ini") = false →
          write_config (fun _ => false) true
            ⟨some (S "/g/c.ini"), none, none, []⟩ [] []
            = .error (S "Invalid config path"))
       ∧ (validate_path (fun _ => false) (S "/g/c.ini") = true → true = true →
          write_config (fun _ => false) true
            ⟨some (S "/g/c.ini"), none, none, []⟩ [] []
            = .ok (false, ⟨some (S "/g/c.ini"), none, none, []⟩, []))
       ∧ (validate_path (fun _ => false) (S "/g/c.ini") = true → true = false →
          write_config (fun _ => false) true
            ⟨some (S "/g/c.ini"), none, none, []⟩ [] []
            = .ok (true,
                setCurrent ⟨some (S "/g/c.ini"), none, none, []⟩ [],
                setA [] (S "/g/c.ini") (renderConfig [])))) :=
  ⟨rfl, write_config_error_reporting (fun _ => false) true
      ⟨some (S "/g/c.ini"), none, none, []⟩ [] [] (S "/g/c.ini") rfl⟩

/-! ### Claim theorems: backups -/

/-- Claim C5, counterexample: the backup name's stem is the literal
`GameUserSettings`, not the basename of the live config file.  Backing up a
live file named `custom.ini` still produces
`GameUserSettings_<timestamp>.ini`, not `custom_<timestamp>.ini` as the
claim's naming rule demands. -/
theorem create_backup_name_not_basename :
    (create_backup
        ⟨some (S "/tmp/custom.ini"), some (S "/tmp/ArcTuner_Backups"), none, []⟩
        [(S "/tmp/custom.ini", S "X")] (S "20250101_000000") []).1
      = some (S "/tmp/ArcTuner_Backups/GameUserSettings_20250101_000000.ini")
    ∧ specBackupFileName (S "/tmp/custom.ini") (S "20250101_000000") []
      = S "custom_20250101_000000.ini"
    ∧ backupFileName (S "20250101_000000") []
      ≠ specBackupFileName (S "/tmp/custom.ini") (S "20250101_000000") [] := by
  decide

/-- Claim C5, amended: `create_backup` copies the live config file into the
backup directory under `GameUserSettings_<timestamp>[_<tag>].ini` (the stem
is the fixed literal `GameUserSettings`, not the live file's basename), the
`_<tag>` suffix appearing exactly when the tag is non-empty; it succeeds with
an empty tag and returns failure when the source config file is absent. -/
theorem create_backup_behaviour (st : CMState) (fs : Fs Str) (ts tag cp : Str)
    (h : st.config_path = some cp) :
    (∀ bd content, st.backup_dir = some bd → getA fs cp = some content →
       create_backup st fs ts tag
         = (some (bd ++ '/' :: backupFileName ts tag),
            setA fs (bd ++ '/' :: backupFileName ts tag) content))
    ∧ (getA fs cp = none → create_backup st fs ts tag = (none, fs))
    ∧ backupFileName ts [] = S "GameUserSettings_" ++ ts ++ S ".ini"
    ∧ (tag ≠ [] → backupFileName ts tag
         = S "GameUserSettings_" ++ ts ++ '_' :: tag ++ S ".ini") := by
  refine ⟨fun bd content hbd hcp => ?_, fun habs => ?_, ?_, fun htag => ?_⟩
  · simp [create_backup, h, hbd, hcp]
  · simp [create_backup, h, habs]
  · simp [backupFileName]
  · simp [backupFileName, htag]

/-- Witness for `create_backup_behaviour`: a concrete backup with a tag. -/
theorem create_backup_behaviour_witness :
    create_backup ⟨some (S "/c/x.ini"), some (S "/c/B"), none, []⟩
        [(S "/c/x.ini", S "D")] (S "20250101_000000") (S "manual")
      = (some (S "/c/B/GameUserSettings_20250101_000000_manual.ini"),
         [(S "/c/x.ini", S "D"),
          (S "/c/B/GameUserSettings_20250101_000000_manual.ini", S "D")]) := by
  have h := (create_backup_behaviour
      ⟨some (S "/c/x.ini"), some (S "/c/B"), none, []⟩
      [(S "/c/x.ini", S "D")] (S "20250101_000000") (S "manual")
      (S "/c/x.ini") rfl).1 (S "/c/B") (S "D") rfl (by decide)
  rw [h]
  decide

/-- Claim C7: `restore_backup` either leaves the file system untouched or
first records a `pre_restore`-tagged backup of the previous live config
content; and with a missing or invalid backup path it returns failure with
the file system (hence the live config) unchanged.  The hypotheses say the
manager has been initialized (config path and backup directory set, live file
present) and that the live path is not itself the pre-restore backup path
(the backup directory is a separate sibling directory in the source). -/
theorem restore_backup_safety (forbidden : Str → Bool) (st : CMState)
    (fs : Fs Str) (ts bp cp bd old : Str)
    (hcp : st.config_path = some cp) (hbd : st.backup_dir = some bd)
    (hold : getA fs cp = some old)
    (hne : cp ≠ bd ++ '/' :: backupFileName ts (S "pre_restore")) :
    ((restore_backup forbidden st fs ts bp).2 = fs
      ∨ getA (restore_backup forbidden st fs ts bp).2
          (bd ++ '/' :: backupFileName ts (S "pre_restore")) = some old)
    ∧ ((getA fs bp = none ∨ validate_path forbidden bp = false) →
        restore_backup forbidden st fs ts bp = (false, fs)) := by
  cases hmem : getA fs bp with
  | none =>
    constructor
    · left
      simp [restore_backup, hmem]
    · intro _
      simp [restore_backup, hmem]
  | some c0 =>
    by_cases hv : validate_path forbidden bp
    · have hcb : (create_backup st fs ts (S "pre_restore")).2
          = setA fs (bd ++ '/' :: backupFileName ts (S "pre_restore")) old := by
        simp [create_backup, hcp, hold, hbd, backupFileName]
      have hbp1 : (getA (setA fs
          (bd ++ '/' :: backupFileName ts (S "pre_restore")) old) bp).isSome := by
        by_cases hb : bp = bd ++ '/' :: backupFileName ts (S "pre_restore")
        · rw [hb, getA_setA_self]
          rfl
        · rw [getA_setA_ne _ _ _ _ hb, hmem]
          rfl
      obtain ⟨c1, hc1⟩ := Option.isSome_iff_exists.mp hbp1
      constructor
      · right
        simp only [restore_backup, hmem, Option.isSome_none, hv, if_true,
          Bool.false_eq_true, if_false, Option.isNone_some, hcb, hcp, hc1]
        rw [getA_setA_ne _ _ _ _ (Ne.symm hne), getA_setA_self]
      · intro hbad
        rcases hbad with hbad | hbad
        · exact Option.noConfusion hbad
        · exact absurd hbad (by simp [hv])
    · constructor
      · left
        simp [restore_backup, hmem, hv]
      · intro _
        simp [restore_backup, hmem, hv]

/-- Witness for `restore_backup_safety` at a concrete initialized manager. -/
theorem restore_backup_safety_witness :
    ((restore_backup (fun _ => false)
        ⟨some (S "/g/c.ini"), some (S "/g/B"), none, []⟩
        [(S "/g/c.ini", S "old"), (S "/g/B/b.ini", S "bk")]
        (S "20250101_000000") (S "/g/B/b.ini")).2
        = [(S "/g/c.ini", S "old"), (S "/g/B/b.ini", S "bk")]
      ∨ getA (restore_backup (fun _ => false)
          ⟨some (S "/g/c.ini"), some (S "/g/B"), none, []⟩
          [(S "/g/c.ini", S "old"), (S "/g/B/b.ini", S "bk")]
          (S "20250101_000000") (S "/g/B/b.ini")).2
          (S "/g/B" ++ '/' :: backupFileName (S "20250101_000000") (S "pre_restore"))
        = some (S "old"))
    ∧ ((getA [(S "/g/c.ini", S "old"), (S "/g/B/b.ini", S "bk")]
          (S "/g/B/b.ini") = none
        ∨ validate_path (fun _ => false) (S "/g/B/b.ini") = false) →
       restore_backup (fun _ => false)
          ⟨some (S "/g/c.ini"), some (S "/g/B"), none, []⟩
          [(S "/g/c.ini", S "old"), (S "/g/B/b.ini", S "bk")]
          (S "20250101_000000") (S "/g/B/b.ini")
         = (false, [(S "/g/c.ini", S "old"), (S "/g/B/b.ini", S "bk")])) :=
  restore_backup_safety (fun _ => false)
    ⟨some (S "/g/c.ini"), some (S "/g/B"), none, []⟩
    [(S "/g/c.ini", S "old"), (S "/g/B/b.ini", S "bk")]
    (S "20250101_000000") (S "/g/B/b.ini") (S "/g/c.ini") (S "/g/B")
    (S "old") rfl rfl (by decide) (by decide)

/-! ### Claim theorems: profiles -/

/-- Claim C8: `save_profile` then `load_profile` returns the saved document;
after `delete_profile`, `load_profile` returns not-found; and a profile file
holding malformed JSON loads as not-found rather than raising. -/
theorem profile_save_load_delete (forbidden : Str → Bool) (st : CMState)
    (pfs : Fs ProfileFile) (ts name : Str) (cfg : Doc) (pd : Str)
    (hpd : st.profiles_dir = some pd)
    (hval : validate_path forbidden (pd ++ '/' :: (pySanitize name ++ S ".json"))
       = true) :
    (save_profile forbidden st pfs ts name cfg).1 = true
    ∧ load_profile st (save_profile forbidden st pfs ts name cfg).2 name
        = some cfg
    ∧ load_profile st (delete_profile st pfs name).2 name = none
    ∧ (getA pfs (pd ++ '/' :: (pySanitize name ++ S ".json"))
         = some ProfileFile.malformed → load_profile st pfs name = none) := by
  refine ⟨?_, ?_, ?_, fun hm => ?_⟩
  · simp [save_profile, hpd, hval]
  · simp [save_profile, load_profile, hpd, hval, getA_setA_self]
  · by_cases hmem : (getA pfs (pd ++ '/' :: (pySanitize name ++ S ".json"))).isSome
    · simp [delete_profile, load_profile, hpd, hmem, getA_removeA_self]
    · rw [Option.not_isSome_iff_eq_none] at hmem
      simp [delete_profile, load_profile, hpd, hmem]
  · simp [load_profile, hpd, hm]

/-- Witness for `profile_save_load_delete`: the spec's own example profile. -/
theorem profile_save_load_delete_witness :
    load_profile ⟨none, none, some (S "/p"), []⟩
        (save_profile (fun _ => false) ⟨none, none, some (S "/p"), []⟩ []
          (S "t") (S "Test Profile") [(S "Test", [(S "key", S "new_value")])]).2
        (S "Test Profile")
      = some [(S "Test", [(S "key", S "new_value")])] :=
  (profile_save_load_delete (fun _ => false) ⟨none, none, some (S "/p"), []⟩ []
    (S "t") (S "Test Profile") [(S "Test", [(S "key", S "new_value")])]
    (S "/p") rfl (by decide)).2.1

/-- Claim C6, counterexample: the sanitization is Python's Unicode `\w`
class, not the ASCII set `[A-Za-z0-9_-]` the claim states.  The letter `é`
is kept by the code but would be replaced by `_` under the claim's rule, so
`save_profile` addresses `é.json`, not `_.json`; and two names the claim's
rule maps to the same string (`é` and `è`) do not collide in the code. -/
theorem sanitize_diverges_from_spec :
    pySanitize (S "é") = S "é"
    ∧ specSanitizeProfileName (S "é") = S "_"
    ∧ pySanitize (S "é") ≠ specSanitizeProfileName (S "é")
    ∧ specSanitizeProfileName (S "é") = specSanitizeProfileName (S "è")
    ∧ pySanitize (S "é") ≠ pySanitize (S "è")
    ∧ (save_profile (fun _ => false) ⟨none, none, some (S "/p"), []⟩ []
        (S "t") (S "é") []).2
        = [(S "/p/é.json", ProfileFile.valid (S "é") (S "t") [])] := by
  decide

/-- Claim C6, amended: `save_profile`, `load_profile` and `delete_profile`
all address `<profilesDir>/<s>.json` where `s` replaces every character of
the name that is neither a Python word character (`\w`: underscore or
Unicode alphanumeric — a strict superset of `[A-Za-z0-9_]`) nor `-` with
`_`; two names collide exactly when this sanitization maps them to the same
string. -/
theorem profile_ops_sanitized_path (forbidden : Str → Bool) (st : CMState)
    (pd name : Str) (hpd : st.profiles_dir = some pd) :
    (∀ pfs ts cfg,
       save_profile forbidden st pfs ts name cfg
         = if validate_path forbidden (pd ++ '/' :: (pySanitize name ++ S ".json"))
           then (true, setA pfs (pd ++ '/' :: (pySanitize name ++ S ".json"))
                         (.valid name ts cfg))
           else (false, pfs))
    ∧ (∀ pfs, load_profile st pfs name
         = match getA pfs (pd ++ '/' :: (pySanitize name ++ S ".json")) with
           | some (.valid _ _ cfg) => some cfg
           | _ => none)
    ∧ (∀ pfs, delete_profile st pfs name
         = if (getA pfs (pd ++ '/' :: (pySanitize name ++ S ".json"))).isSome
           then (true, removeA pfs (pd ++ '/' :: (pySanitize name ++ S ".json")))
           else (false, pfs))
    ∧ pySanitize name
        = name.map (fun c => if pyWordChar c || c = '-' then c else '_')
    ∧ (∀ name2 : Str,
         pd ++ '/' :: (pySanitize name ++ S ".json")
           = pd ++ '/' :: (pySanitize name2 ++ S ".json")
         ↔ pySanitize name = pySanitize name2) := by
  refine ⟨fun pfs ts cfg => ?_, fun pfs => ?_, fun pfs => ?_, rfl, fun n2 => ?_⟩
  · simp [save_profile, hpd]
  · cases hg : getA pfs (pd ++ '/' :: (pySanitize name ++ S ".json")) with
    | none => simp [load_profile, hpd, hg]
    | some pf => cases pf <;> simp [load_profile, hpd, hg]
  · simp [delete_profile, hpd]
  · constructor
    · intro h
      exact List.append_cancel_right
        (List.cons_injective (List.append_cancel_left h))
    · intro h
      rw [h]

/-- Witness for `profile_ops_sanitized_path`: loading a profile saved under a
name with a space finds the `_`-sanitized file. -/
theorem profile_ops_sanitized_path_witness :
    load_profile ⟨none, none, some (S "/p"), []⟩
        [(S "/p/A_B.json", ProfileFile.valid (S "A B") (S "t") [])] (S "A B")
      = some [] := by
  have h := (profile_ops_sanitized_path (fun _ => false)
      ⟨none, none, some (S "/p"), []⟩ (S "/p") (S "A B") rfl).2.1
      [(S "/p/A_B.json", ProfileFile.valid (S "A B") (S "t") [])]
  rw [h]
  decide

end ArcTuner
